import Mathlib

/-
Verification development for the anyblok_media repository.

The Python models are shallowly embedded as executable Lean definitions:

* bytes are `List Nat`, strings are `String`;
* Python truthiness of an optional field (`None`, empty bytes and the empty
  string are falsy) is made explicit through `truthyBytes` / `truthyStr`;
* external collaborators (HTTP fetch, filesystem reads, the slugify library,
  `str.format` pattern expansion, the success of a disk write) are supplied
  as explicit environment records, so the control flow of the Python code is
  translated literally while the outside world stays a parameter;
* Python `str.lower` / `str.strip` / `str.split` are modelled structurally on
  the character list (`pyLower`, `pyStrip`, `pySplit`) so that the kernel can
  evaluate them;
* `int(a / b)` on Python numbers (float division then truncation toward
  zero) is modelled by `Int.tdiv`, and `uuid4` freshness is modelled by
  using the tag-store insertion index as the fresh identifier.
-/

namespace AnyblokMedia

/-- Truthiness of an optional byte value: Python treats None and b"" as falsy. -/
def truthyBytes : Option (List Nat) → Bool
  | none => false
  | some b => !b.isEmpty

/-- Truthiness of an optional string value: Python treats None and "" as falsy. -/
def truthyStr : Option String → Bool
  | none => false
  | some s => !s.isEmpty

/-- Python str.lower, modelled on the character list. -/
def pyLower (s : String) : String := ⟨s.data.map Char.toLower⟩

/-- Python str.strip (whitespace on both ends), modelled on the character list. -/
def pyStrip (s : String) : String :=
  ⟨((s.data.dropWhile (·.isWhitespace)).reverse.dropWhile (·.isWhitespace)).reverse⟩

/-- Splitting a character list on a separator character, as Python str.split does. -/
def splitOnChar (c : Char) : List Char → List (List Char)
  | [] => [[]]
  | ch :: rest =>
      match splitOnChar c rest with
      | [] => [[]]
      | h :: t => if ch = c then [] :: h :: t else (ch :: h) :: t

/-- Python str.split with a one-character separator. -/
def pySplit (c : Char) (s : String) : List String :=
  (splitOnChar c s.data).map (fun l => ⟨l⟩)

/-- Values stored in the Jsonb `meta` / `properties` dictionaries and written to
the media file by the metadata library: strings, lists of strings, or numbers. -/
inductive MVal where
  | s : String → MVal
  | l : List String → MVal
  | n : Int → MVal
deriving DecidableEq, Repr

/-- Update-or-append on an association list, modelling assignment into a Python
dict (`d[k] = v`): the first binding of the key is replaced in place, and a
missing key is appended at the end, matching insertion-ordered dicts. -/
def upsert (f : List (String × MVal)) (k : String) (v : MVal) :
    List (String × MVal) :=
  match f with
  | [] => [(k, v)]
  | (k1, v1) :: rest =>
      if k1 = k then (k, v) :: rest else (k1, v1) :: upsert rest k v

/-- Lookup in an association list, modelling Python `d.get(k)` / `d[k]`. -/
def alookup (f : List (String × MVal)) (k : String) : Option MVal :=
  match f with
  | [] => none
  | (k1, v1) :: rest => if k1 = k then some v1 else alookup rest k

/-- Configuration of a concrete polymorphic Media class, as read by
`Media.create`: the class constants MEDIA_TYPE, SOURCE_STORAGE_STRATEGY and
SOURCE_DISK_STORAGE_PATTERN, and the AnyBlok `source_path_prefix`
configuration entry. -/
structure MediaConfig where
  mediaTypeSet : Bool
  sourceStorageStrategy : Option String
  sourceDiskStoragePattern : String
  sourcePathPfx : Option String
deriving Repr

/-- External world used by `Media.create` and `get_source_bytes`:
`fetch` is `requests.get(url).content` / `urlopen(url).read()`, `readFile` is
`open(path, "rb").read()`, `basename` is `os.path.split(p)[-1]`, `slug` is the
slugify library, `formatSourcePath` is `SOURCE_DISK_STORAGE_PATTERN.format(...)`
applied to the computed filename and extension, and `writeOk` tells whether
the disk write of the source file raises OSError. -/
structure MediaEnv where
  fetch : String → List Nat
  readFile : String → List Nat
  basename : String → String
  slug : String → String
  formatSourcePath : String → String → String
  writeOk : Bool

/-- Keyword arguments of `Media.create` that the embedding tracks. -/
structure CreateRequest where
  file : Option (List Nat) := none
  file_url : Option String := none
  file_path : Option String := none
  filename : Option String := none
deriving DecidableEq, Repr

/-- Record as persisted by `cls.insert(**data)` at the end of `Media.create`:
the source fields and the filename of the new row. -/
structure MediaRecord where
  file : Option (List Nat)
  file_path : Option String
  file_url : Option String
  filename : Option String
deriving DecidableEq, Repr

/-- Exceptions `Media.create` can raise before reaching `insert`.
`mediaTypeNotSet`, `noSourceField` and `tooManySourceFields` are the three
plain `Exception`s at the top of `create`; the two configuration errors are
the `ConfigurationException`s of the disk branch; `missingFilename` is the
"No filename" `Exception`; `filenameSplitError` is the uncaught ValueError of
`filename, extension = data.get("filename").split(".")`. -/
inductive CreateError where
  | mediaTypeNotSet
  | noSourceField
  | tooManySourceFields
  | missingDiskPattern
  | missingPathPfx
  | missingFilename
  | filenameSplitError
deriving DecidableEq, Repr

/-- Translation of `Media.get_source_storage_strategy`: None for an unset or
unknown strategy (the Python method logs a warning and returns None), the
strategy itself otherwise. -/
def get_source_storage_strategy (cfg : MediaConfig) : Option String :=
  match cfg.sourceStorageStrategy with
  | none => none
  | some s =>
      if s.isEmpty then none
      else if s = "database" ∨ s = "disk" then some s
      else none

/-- Translation of `Media.slugify_filename` with `random_suffix=False`:
lower-case the name, split on dots, pop the extension, join the remaining
pieces, slugify the joined name and re-attach the extension. -/
def slugify_filename (slug : String → String) (filename : String) : String :=
  let parts := pySplit '.' (pyLower filename)
  let extension := parts.getLastD ""
  let name := String.join parts.dropLast
  slug name ++ "." ++ extension

/-- Number of truthy source fields among file, file_url and file_path, as
computed by `list(filter(None, [_file, _file_url, _file_path]))` in
`Media.create`. -/
def numSourceFields (req : CreateRequest) : Nat :=
  (if truthyBytes req.file then 1 else 0)
    + (if truthyStr req.file_url then 1 else 0)
    + (if truthyStr req.file_path then 1 else 0)

/-- Translation of `Media.create`. A `.ok` result is exactly the record handed
to `cls.insert(**data)` (so an `.error` result means nothing was persisted).
The mutable `data` dict is modelled by tracking the file / file_path /
file_url / filename entries through the branches of the Python code:

* url branch: `data["file"] = req.content`, filename defaulted from the url;
* path branch: `data["file"]` read from disk, filename defaulted from the
  path; the original `file_path` entry is left in `data`;
* disk storage branch: `data.pop("file")`, configuration checks, slugified
  filename, computed `source_path`, and `data["file_path"] = source_path`
  only when the write did not raise OSError (the except branch only logs). -/
def create (cfg : MediaConfig) (env : MediaEnv) (req : CreateRequest) :
    Except CreateError MediaRecord :=
  let storage := get_source_storage_strategy cfg
  if ¬ cfg.mediaTypeSet then .error .mediaTypeNotSet
  else if numSourceFields req = 0 then .error .noSourceField
  else if numSourceFields req > 1 then .error .tooManySourceFields
  else
    let dataFile :=
      if truthyStr req.file_url then some (env.fetch (req.file_url.getD ""))
      else if truthyStr req.file_path then
        some (env.readFile (req.file_path.getD ""))
      else req.file
    let dataFilename :=
      if truthyStr req.file_url then
        if truthyStr req.filename then req.filename
        else some (env.basename (req.file_url.getD ""))
      else if truthyStr req.file_path then
        if truthyStr req.filename then req.filename
        else some (env.basename (req.file_path.getD ""))
      else req.filename
    if truthyBytes dataFile then
      if storage = some "disk" then
        if cfg.sourceDiskStoragePattern.isEmpty then .error .missingDiskPattern
        else if ¬ truthyStr cfg.sourcePathPfx then .error .missingPathPfx
        else if ¬ truthyStr dataFilename then .error .missingFilename
        else
          let slugged := slugify_filename env.slug (dataFilename.getD "")
          let parts := pySplit '.' slugged
          if parts.length ≠ 2 then .error .filenameSplitError
          else
            let source_path :=
              env.formatSourcePath (parts.headD "") (parts.getLastD "")
            if env.writeOk then
              .ok ⟨none, some source_path, req.file_url, some slugged⟩
            else
              .ok ⟨none, req.file_path, req.file_url, some slugged⟩
      else
        .ok ⟨dataFile, req.file_path, req.file_url, dataFilename⟩
    else
      .ok ⟨dataFile, req.file_path, req.file_url, dataFilename⟩

/-- Translation of `Media.get_source_file_field`: the checks are, in order,
`self.file`, `self.file_url`, `self.file_path`, each by truthiness. -/
def get_source_file_field (m : MediaRecord) : Option String :=
  if truthyBytes m.file then some "file"
  else if truthyStr m.file_url then some "file_url"
  else if truthyStr m.file_path then some "file_path"
  else none

/-- Translation of `Media.get_source_bytes`: None (Python `return` with no
value, after a warning) when no source field is set, otherwise the bytes of
the field selected by `get_source_file_field`. -/
def get_source_bytes (env : MediaEnv) (m : MediaRecord) : Option (List Nat) :=
  match get_source_file_field m with
  | none => none
  | some field =>
      if field = "file" then some (m.file.getD [])
      else if field = "file_path" then
        some (env.readFile (m.file_path.getD ""))
      else if field = "file_url" then some (env.fetch (m.file_url.getD ""))
      else none

/-- Pixel dimensions of a PIL image. -/
structure Dims where
  width : Nat
  height : Nat
deriving DecidableEq, Repr

/-- Dimensions requested by the `img.resize(...)` call inside `Image.__crop`
(PIL resize returns exactly the requested size). The landscape branch asks
for `(int(height * img.width / img.height), height)`; the portrait branch
asks for `(width, int(width * img.width / img.height))`, exactly as written
in the source. Python `int(a * b / c)` on non-negative ints is modelled as
truncated (floor) natural division. -/
def crop_resize_dims (img : Dims) (size : Nat × Nat) : Dims :=
  if img.width ≥ img.height then
    ⟨size.2 * img.width / img.height, size.2⟩
  else
    ⟨size.1, size.1 * img.width / img.height⟩

/-- Dimensions of the image returned by `Image.__crop`. After the resize, the
landscape branch crops the box `(int((gw - width) / 2), 0,
int((gw + width) / 2), height)` and the portrait branch crops the box
`(0, int((gh - height) / 2), width, int((gh + height) / 2))`; PIL `crop`
returns an image of exactly the size of the box (padding when the box leaves
the image), so the output dimensions are the box side lengths. Python
`int(x)` truncates toward zero, which is `Int.tdiv` here. -/
def crop_dims (img : Dims) (size : Nat × Nat) : Dims :=
  let width := size.1
  let height := size.2
  let g := crop_resize_dims img size
  if img.width ≥ img.height then
    let left := Int.tdiv ((g.width : Int) - width) 2
    let right := Int.tdiv ((g.width : Int) + width) 2
    ⟨(right - left).toNat, height⟩
  else
    let top := Int.tdiv ((g.height : Int) - height) 2
    let bottom := Int.tdiv ((g.height : Int) + height) 2
    ⟨width, (bottom - top).toNat⟩

/-- Resize dimensions the spec sentence describes (modelled from the claim
for comparison only): the portrait branch scales by target width preserving
the aspect ratio, so the new height is `W * original_height / original_width`.
The landscape branch matches the code. -/
def crop_resize_dims_claim (img : Dims) (size : Nat × Nat) : Dims :=
  if img.width ≥ img.height then
    ⟨size.2 * img.width / img.height, size.2⟩
  else
    ⟨size.1, size.1 * img.height / img.width⟩

/-- One entry of the PROCESS_PARAMS mapping, with the keys
`format_transformation_properties` and `generate` read through `.get`. -/
structure ProcessItem where
  width : Option Nat := none
  height : Option Nat := none
  extension : Option String := none
  file_format : Option String := none
  transformation_mode : Option String := none
deriving DecidableEq, Repr

/-- One value of the `properties` dict built by
`format_transformation_properties`. -/
structure Rendition where
  width : Option Nat
  height : Option Nat
  path : String
  url : String
  file_format : Option String
  transformation_mode : Option String
  extension : Option String
deriving DecidableEq, Repr

/-- Class-level configuration of a polymorphic Image class. -/
structure ImageConfig where
  processParams : List (String × ProcessItem)
  destinationPathPattern : String
  urlPattern : String
deriving Repr

/-- External world of the image pipeline: `formatDest` and `formatUrl` stand
for the `str.format` expansions of DESTINATION_PATH_PATTERN and URL_PATTERN
with the rendition name, the item fields, the filename, the media path
prefix and the current date. -/
structure ImageEnv where
  formatDest : String → ProcessItem → String
  formatUrl : String → ProcessItem → String

/-- Fields of an image entity that `Image.process` can observe or modify. -/
structure ImageEntity where
  filename : Option String
  meta : List (String × MVal)
  properties : Option (List (String × Rendition))
  state : String
deriving DecidableEq, Repr

/-- Translation of `Image.format_transformation_properties`: None (after a
warning) when PROCESS_PARAMS, DESTINATION_PATH_PATTERN or URL_PATTERN is
empty, otherwise one Rendition per parameter entry, in order. -/
def format_transformation_properties (cfg : ImageConfig) (env : ImageEnv) :
    Option (List (String × Rendition)) :=
  if cfg.processParams.isEmpty then none
  else if cfg.destinationPathPattern.isEmpty then none
  else if cfg.urlPattern.isEmpty then none
  else some (cfg.processParams.map (fun p =>
    (p.1, { width := p.2.width, height := p.2.height,
            path := env.formatDest p.1 p.2, url := env.formatUrl p.1 p.2,
            file_format := p.2.file_format,
            transformation_mode := p.2.transformation_mode,
            extension := p.2.extension })))

/-- Translation of `Image.process`. The two guards return the entity
unchanged (warning only). Otherwise `self.properties` is assigned the result
of `format_transformation_properties`; when that result is None the following
`self.properties.items()` raises AttributeError, modelled as `none`. The
`generate` loop writes rendition files to disk and does not modify the
entity. Note that `Image.process` never touches `self.state`. -/
def imageProcess (cfg : ImageConfig) (env : ImageEnv) (e : ImageEntity) :
    Option ImageEntity :=
  if cfg.destinationPathPattern.isEmpty then some e
  else if cfg.processParams.isEmpty then some e
  else
    match format_transformation_properties cfg env with
    | none => none
    | some props => some { e with properties := some props }

/-- Row of the Tag model: uuid, name and media_type. The uuid4 of a freshly
inserted row is modelled as the insertion index in the tag store. -/
structure TagRow where
  uuid : Nat
  name : String
  media_type : String
deriving DecidableEq, Repr

/-- Fields of an audio or video entity. -/
structure AvEntity where
  uuid : Nat
  file : Option (List Nat)
  file_path : Option String
  file_url : Option String
  filename : Option String
  meta : List (String × MVal)
  properties : List (String × MVal)
  state : String
  edit_date : Nat
deriving DecidableEq, Repr

/-- State touched by the audio / video metadata code: the Tag table, the
MediaTag join table (pairs of media uuid and tag uuid, in insertion order,
with the pair as composite primary key), the entity itself, and the metadata
dictionary currently serialized in the source file at `file_path`
(`MediaFile(self.file_path)` reads it, `f.save()` writes it back).
`fileDuration` is `MediaFile(...).length`. -/
structure MediaState where
  tagStore : List TagRow
  assocs : List (Nat × Nat)
  entity : AvEntity
  fileMeta : List (String × MVal)
  fileDuration : Int
deriving DecidableEq, Repr

/-- Translation of `Audio.process`: publish the entity when it is not
published yet, touch nothing else. -/
def audioProcess (st : MediaState) : MediaState :=
  if st.entity.state ≠ "published" then
    { st with entity := { st.entity with state := "published" } }
  else st

/-- Translation of `Video.process`, identical to the audio version. -/
def videoProcess (st : MediaState) : MediaState :=
  if st.entity.state ≠ "published" then
    { st with entity := { st.entity with state := "published" } }
  else st

/-- Translation of the lookup-or-create block that appears twice in the Audio
model (`write_metadata_to_source` and `before_update_orm_event`):
`Tag.query().filter_by(name=tag_name).first()` — a lookup by name only, the
first match in table order, with no media_type filter — and on a miss
`Tag.insert(name=tag_name.strip().lower(), media_type="audio")`. -/
def audioResolveTag (store : List TagRow) (tok : String) :
    List TagRow × TagRow :=
  match store.find? (fun t => t.name = tok) with
  | some t => (store, t)
  | none =>
      let t : TagRow := ⟨store.length, pyLower (pyStrip tok), "audio"⟩
      (store ++ [t], t)

/-- The `for tag_name in v` loop inside the genres branch of
`Audio.write_metadata_to_source`: resolve each token in order through
`audioResolveTag`, threading the tag store and collecting the resolved tag
names into `genres_tags`. -/
def audioResolveAll : List TagRow → List String → List TagRow × List String
  | store, [] => (store, [])
  | store, tok :: rest =>
      let r := audioResolveTag store tok
      let rr := audioResolveAll r.1 rest
      (rr.1, r.2.name :: rr.2)

/-- One iteration of the `for field, v in self.meta.items()` loop of
`Audio.write_metadata_to_source`, threading the tag store, the join table and
the MediaFile dict. On the genres field (when its value is a non-empty list)
the entity tag associations are cleared, each token is resolved through
`audioResolveTag`, and the value written to the file is the list of resolved
tag names; every other field is written verbatim. -/
def audioApplyMetaField (media : Nat)
    (acc : List TagRow × List (Nat × Nat) × List (String × MVal))
    (item : String × MVal) :
    List TagRow × List (Nat × Nat) × List (String × MVal) :=
  let store := acc.1
  let assocs := acc.2.1
  let f := acc.2.2
  if item.1 = "genres" then
    match item.2 with
    | .l toks =>
        if toks.isEmpty then (store, assocs, upsert f item.1 item.2)
        else
          let cleared := assocs.filter (fun p => p.1 ≠ media)
          let res := audioResolveAll store toks
          (res.1, cleared, upsert f item.1 (.l res.2))
    | _ => (store, assocs, upsert f item.1 item.2)
  else (store, assocs, upsert f item.1 item.2)

/-- The whole `for field, v in self.meta.items()` loop of
`Audio.write_metadata_to_source`, item by item in dict insertion order. -/
def audioApplyMeta (media : Nat)
    (acc : List TagRow × List (Nat × Nat) × List (String × MVal)) :
    List (String × MVal) →
    List TagRow × List (Nat × Nat) × List (String × MVal)
  | [] => acc
  | item :: rest =>
      audioApplyMeta media (audioApplyMetaField media acc item) rest

/-- Translation of `Audio.write_metadata_to_source`: open the MediaFile, set
`self.properties["duration"] = f.length`, run the field loop, `f.save()`. -/
def audioWriteMetadataToSource (st : MediaState) : MediaState :=
  let entity1 := { st.entity with
    properties := upsert st.entity.properties "duration" (.n st.fileDuration) }
  let res := audioApplyMeta st.entity.uuid
      (st.tagStore, st.assocs, st.fileMeta) st.entity.meta
  { st with tagStore := res.1, assocs := res.2.1, fileMeta := res.2.2,
            entity := entity1 }

/-- Tokens obtained by the Python iteration `for tag_name in v`: a list
yields its items, a string yields its characters, and iterating a number
raises TypeError (None). -/
def iterTokens : MVal → Option (List String)
  | .l vs => some vs
  | .s s => some (s.data.map (fun c => String.mk [c]))
  | .n _ => none

/-- Translation of `MediaTag.insert(media_uuid=..., tag_uuid=...)`: the pair
is the composite primary key of the join table, so inserting a pair that is
already present raises IntegrityError (None). -/
def mediaTagInsert (assocs : List (Nat × Nat)) (p : Nat × Nat) :
    Option (List (Nat × Nat)) :=
  if p ∈ assocs then none else some (assocs ++ [p])

/-- The genres loop of `Audio.before_update_orm_event`: resolve each token by
name-only lookup (creating a normalized audio tag on a miss) and insert a
MediaTag row associating it to the entity. -/
def audioHookGenres (media : Nat) :
    List String → List TagRow → List (Nat × Nat) →
    Option (List TagRow × List (Nat × Nat))
  | [], store, assocs => some (store, assocs)
  | tok :: rest, store, assocs =>
      let r := audioResolveTag store tok
      match mediaTagInsert assocs (media, r.2.uuid) with
      | none => none
      | some assocs1 => audioHookGenres media rest r.1 assocs1

/-- Translation of `Audio.before_update_orm_event`: stamp `edit_date`, and
when `target.meta` is non-empty run `write_metadata_to_source` and then, when
the meta has a genres key, the association loop. -/
def audioBeforeUpdate (now : Nat) (st : MediaState) : Option MediaState :=
  let st0 := { st with entity := { st.entity with edit_date := now } }
  if st0.entity.meta.isEmpty then some st0
  else
    let st1 := audioWriteMetadataToSource st0
    match alookup st0.entity.meta "genres" with
    | none => some st1
    | some v =>
        match iterTokens v with
        | none => none
        | some toks =>
            match audioHookGenres st1.entity.uuid toks st1.tagStore
                st1.assocs with
            | none => none
            | some res => some { st1 with tagStore := res.1, assocs := res.2 }

/-- One iteration of the `for field, v in self.meta.items()` loop of
`Video.write_metadata_to_source`. `tagNames` is the `tag_list` computed once
before the loop (the names of the video-typed tags). A genres token found in
that list is kept verbatim; a missing one is normalized, inserted as a video
tag when non-empty, and the normalized value is appended either way. No tag
is ever associated to the entity. -/
def videoApplyMetaField (tagNames : List String)
    (acc : List TagRow × List (String × MVal)) (item : String × MVal) :
    List TagRow × List (String × MVal) :=
  let store := acc.1
  let f := acc.2
  if item.1 = "genres" then
    match item.2 with
    | .l toks =>
        let res := toks.foldl
          (fun (a : List TagRow × List String) tok =>
            if tok ∈ tagNames then (a.1, a.2 ++ [tok])
            else
              let tok1 := pyLower (pyStrip tok)
              if tok1.isEmpty then (a.1, a.2 ++ [tok1])
              else (a.1 ++ [⟨a.1.length, tok1, "video"⟩], a.2 ++ [tok1]))
          (store, ([] : List String))
        (res.1, upsert f item.1 (.l res.2))
    | _ => (store, upsert f item.1 item.2)
  else (store, upsert f item.1 item.2)

/-- Translation of `Video.write_metadata_to_source`. -/
def videoWriteMetadataToSource (st : MediaState) : MediaState :=
  let tagNames :=
    (st.tagStore.filter (fun t => t.media_type = "video")).map (fun t => t.name)
  let res := st.entity.meta.foldl (videoApplyMetaField tagNames)
      (st.tagStore, st.fileMeta)
  { st with tagStore := res.1, fileMeta := res.2 }

/-- Translation of `Video.before_update_orm_event`: stamp `edit_date` and run
`write_metadata_to_source` when the meta is non-empty; no tag association. -/
def videoBeforeUpdate (now : Nat) (st : MediaState) : MediaState :=
  let st0 := { st with entity := { st.entity with edit_date := now } }
  if st0.entity.meta.isEmpty then st0
  else videoWriteMetadataToSource st0

/-- Precedence as the claim words it, for comparison with the code: file,
then file_path, then file_url. Modelled from the spec sentence only. -/
def get_source_bytes_claim (env : MediaEnv) (m : MediaRecord) :
    Option (List Nat) :=
  if truthyBytes m.file then some (m.file.getD [])
  else if truthyStr m.file_path then some (env.readFile (m.file_path.getD ""))
  else if truthyStr m.file_url then some (env.fetch (m.file_url.getD ""))
  else none

/-- Count of populated source fields of a persisted record, written as a
boolean triple (file, file_url, file_path). -/
def sourceMask (r : MediaRecord) : Bool × Bool × Bool :=
  (truthyBytes r.file, truthyStr r.file_url, truthyStr r.file_path)

/-- Exactly-one-source predicate the invariant claims speak about. -/
def exactlyOneSource (r : MediaRecord) : Bool :=
  ((if truthyBytes r.file then 1 else 0)
      + (if truthyStr r.file_url then 1 else 0)
      + (if truthyStr r.file_path then 1 else 0)) == 1

/-- Bool form of non-emptiness of a string. -/
theorem isEmpty_false_of_ne {s : String} (h : s ≠ "") : s.isEmpty = false := by
  rw [← Bool.not_eq_true]
  simp [String.isEmpty_iff, h]

/-- Truthiness of a present non-empty string. -/
theorem truthyStr_pos {s : String} (h : s ≠ "") : truthyStr (some s) = true := by
  simp [truthyStr, isEmpty_false_of_ne h]

/-- Truthiness of an absent byte value. -/
@[simp] theorem truthyBytes_none : truthyBytes none = false := rfl

/-- Truthiness of an absent string value. -/
@[simp] theorem truthyStr_none : truthyStr none = false := rfl

/-- Truthiness of present non-empty bytes. -/
theorem truthyBytes_pos {b : List Nat} (h : b ≠ []) :
    truthyBytes (some b) = true := by
  simp [truthyBytes, List.isEmpty_iff, h]

/-- C10: for every audio or video entity, process only publishes: the result
is exactly the input state with the entity state set to published, so file,
file_path, file_url, filename, meta, properties, the tag store and the tag
associations are all unchanged, and when the state is already published the
call changes nothing at all. -/
theorem c10_process_only_state (st : MediaState) :
    audioProcess st
        = { st with entity := { st.entity with state := "published" } } ∧
      videoProcess st
        = { st with entity := { st.entity with state := "published" } } := by
  obtain ⟨store, assocs, ⟨u, f, fp, fu, fn, m, p, s, d⟩, fm, dur⟩ := st
  constructor <;>
    · simp only [audioProcess, videoProcess]
      by_cases h : s = "published" <;> simp [h]

/-- C9: with a media type configured, a creation request in which zero of the
three source fields carries a truthy value, or in which two or more of them
do, raises before reaching `insert`, for every combination of the three
fields: the no-source exception for zero populated fields and the
too-many-sources exception otherwise. An `.error` result is raised before
`cls.insert`, so no record is persisted. -/
theorem c9_create_requires_exactly_one_source (cfg : MediaConfig)
    (env : MediaEnv) (req : CreateRequest)
    (hmt : cfg.mediaTypeSet = true) (h : numSourceFields req ≠ 1) :
    create cfg env req
      = .error (if numSourceFields req = 0 then CreateError.noSourceField
                else CreateError.tooManySourceFields) := by
  unfold create
  by_cases h0 : numSourceFields req = 0
  · simp [hmt, h0]
  · have h2 : numSourceFields req > 1 := by omega
    simp [hmt, h0, h2, Nat.not_eq_zero_of_lt h2]

/-- Trivial environment used by concrete instances. -/
def trivEnv : MediaEnv :=
  ⟨fun _ => [], fun _ => [], fun _ => "", fun s => s, fun _ _ => "", true⟩

/-- Witness for C9: the empty creation request on a configured media type. -/
theorem c9_witness :
    create ⟨true, none, "", none⟩ trivEnv ({} : CreateRequest)
      = .error (if numSourceFields ({} : CreateRequest) = 0
                then CreateError.noSourceField
                else CreateError.tooManySourceFields) :=
  c9_create_requires_exactly_one_source _ _ _ rfl (by decide)

/-- C3 (code bug): at the portrait image 100 by 200 with target size (50, 80)
the crop transform resizes to (50, 25) — the portrait branch computes the new
height as `int(width * img.width / img.height)`, inverting the aspect ratio —
while the claimed aspect-preserving scale by target width gives height
`50 * 200 / 100 = 100`. The landscape branch does match the claim, as the
last conjunct shows on the transposed image. -/
theorem c3_crop_portrait_evaluation :
    crop_resize_dims ⟨100, 200⟩ (50, 80) = ⟨50, 25⟩ ∧
      crop_resize_dims_claim ⟨100, 200⟩ (50, 80) = ⟨50, 100⟩ ∧
      (⟨50, 25⟩ : Dims) ≠ ⟨50, 50 * 200 / 100⟩ ∧
      crop_resize_dims ⟨200, 100⟩ (50, 80)
        = crop_resize_dims_claim ⟨200, 100⟩ (50, 80) := by decide

/-- C4 counterexample: cropping the portrait image 100 by 200 to target
(50, 80) returns a 50 by 79 image, not 50 by 80: the buggy scaled height is
25, the crop box is (0, -27, 50, 52), and PIL returns the box size. -/
theorem c4_counterexample :
    crop_dims ⟨100, 200⟩ (50, 80) = ⟨50, 79⟩ ∧
      (⟨50, 79⟩ : Dims) ≠ ⟨50, 80⟩ := by decide

/-- Arithmetic of the centered crop box: when the scaled extent `g` covers
the target extent `t`, the box side `int((g + t) / 2) - int((g - t) / 2)` is
exactly `t`. -/
theorem tdiv_center_box (g t : Nat) (h : t ≤ g) :
    (Int.tdiv ((g : Int) + t) 2 - Int.tdiv ((g : Int) - t) 2).toNat = t := by
  rw [Int.tdiv_eq_ediv (by omega) (by omega),
    Int.tdiv_eq_ediv (by omega) (by omega)]
  omega

/-- C4 amended: crop returns exactly the target size whenever the scaled
image covers the target in the cropped dimension — for a landscape source,
whenever the scaled width `int(H * w / h)` is at least W; for a portrait
source, whenever the scaled height computed by the code, `int(W * w / h)`,
is at least H. Otherwise the cropped dimension can fall short (see the
counterexample), because the crop box is truncated toward zero on a negative
left/top coordinate. -/
theorem c4_amended_crop_dims (img : Dims) (W H : Nat) :
    (img.width ≥ img.height → W ≤ H * img.width / img.height →
        crop_dims img (W, H) = ⟨W, H⟩) ∧
      (¬ img.width ≥ img.height → H ≤ W * img.width / img.height →
        crop_dims img (W, H) = ⟨W, H⟩) := by
  constructor
  · intro hl hcov
    simp only [crop_dims, crop_resize_dims, hl, if_true, if_pos]
    exact congrArg (fun x => Dims.mk x H)
      (tdiv_center_box (H * img.width / img.height) W hcov)
  · intro hl hcov
    simp only [crop_dims, crop_resize_dims, hl, if_false, if_neg,
      not_false_iff]
    exact congrArg (fun x => Dims.mk W x)
      (tdiv_center_box (W * img.width / img.height) H hcov)

/-- Witness for C4 amended: a landscape 200 by 100 cropped to (50, 80) and a
portrait 100 by 200 cropped to (50, 20) both come out exactly at the target
size. -/
theorem c4_witness :
    crop_dims ⟨200, 100⟩ (50, 80) = ⟨50, 80⟩ ∧
      crop_dims ⟨100, 200⟩ (50, 20) = ⟨50, 20⟩ :=
  ⟨(c4_amended_crop_dims ⟨200, 100⟩ 50 80).1 (by decide) (by decide),
   (c4_amended_crop_dims ⟨100, 200⟩ 50 20).2 (by decide) (by decide)⟩

/-- Environment for the C8 instances: url bytes are [7], disk bytes are [9]. -/
def c8env : MediaEnv :=
  ⟨fun _ => [7], fun _ => [9], fun _ => "", fun s => s, fun _ _ => "", true⟩

/-- C8 counterexample: on a record where both file_path and file_url are
populated and file is empty, the code reads the url bytes ([7]) while the
precedence stated by the claim — file, then file_path, then file_url — would
read the disk bytes ([9]): the code checks file_url before file_path. -/
theorem c8_counterexample :
    get_source_bytes c8env ⟨none, some "/p", some "u", none⟩ = some [7] ∧
      get_source_bytes_claim c8env ⟨none, some "/p", some "u", none⟩
        = some [9] ∧
      (some [7] : Option (List Nat)) ≠ some [9] := ⟨rfl, rfl, by decide⟩

/-- C8 amended: get_source_bytes returns the bytes of the populated source
field with precedence file, then file_url, then file_path (not file_path
before file_url), and returns an explicit none instead of raising when no
source field is populated. -/
theorem c8_amended_precedence (env : MediaEnv) (m : MediaRecord) :
    (truthyBytes m.file = true →
        get_source_bytes env m = some (m.file.getD [])) ∧
      (truthyBytes m.file = false → truthyStr m.file_url = true →
        get_source_bytes env m = some (env.fetch (m.file_url.getD ""))) ∧
      (truthyBytes m.file = false → truthyStr m.file_url = false →
        truthyStr m.file_path = true →
        get_source_bytes env m = some (env.readFile (m.file_path.getD ""))) ∧
      (truthyBytes m.file = false → truthyStr m.file_url = false →
        truthyStr m.file_path = false → get_source_bytes env m = none) := by
  refine ⟨fun h1 => ?_, fun h1 h2 => ?_, fun h1 h2 h3 => ?_,
    fun h1 h2 h3 => ?_⟩
  · simp [get_source_bytes, get_source_file_field, h1]
  · simp [get_source_bytes, get_source_file_field, h1, h2]
  · simp [get_source_bytes, get_source_file_field, h1, h2, h3]
  · simp [get_source_bytes, get_source_file_field, h1, h2, h3]

/-- Witness for C8 amended: each of the four precedence cases at a concrete
record. -/
theorem c8_witness :
    get_source_bytes c8env ⟨some [1], some "/p", some "u", none⟩
        = some ((some [1]).getD []) ∧
      get_source_bytes c8env ⟨none, some "/p", some "u", none⟩
        = some (c8env.fetch ((some "u").getD "")) ∧
      get_source_bytes c8env ⟨none, some "/p", none, none⟩
        = some (c8env.readFile ((some "/p").getD "")) ∧
      get_source_bytes c8env ⟨none, none, none, some "x"⟩ = none :=
  ⟨(c8_amended_precedence c8env ⟨some [1], some "/p", some "u", none⟩).1
      (by decide),
   (c8_amended_precedence c8env ⟨none, some "/p", some "u", none⟩).2.1
      (by decide) (by decide),
   (c8_amended_precedence c8env ⟨none, some "/p", none, none⟩).2.2.1
      (by decide) (by decide) (by decide),
   (c8_amended_precedence c8env ⟨none, none, none, some "x"⟩).2.2.2
      (by decide) (by decide) (by decide)⟩

/-- Environment for the C1 instances: fetched bytes are [7], disk bytes [9]. -/
def c1env : MediaEnv :=
  ⟨fun _ => [7], fun _ => [9], fun _ => "a.jpg", fun s => s,
   fun _ _ => "/d/a.jpg", true⟩

/-- C1 counterexample: a URL-sourced create under the database strategy
persists a record whose file AND file_url are both populated — `create`
stores the downloaded bytes into `data["file"]` but never removes the
`file_url` entry from `data` — so the resulting entity does not have exactly
one populated source field. -/
theorem c1_counterexample :
    create ⟨true, some "database", "", none⟩ c1env
        { file_url := some "http://x/a.jpg" }
      = .ok ⟨some [7], none, some "http://x/a.jpg", some "a.jpg"⟩ ∧
      exactlyOneSource ⟨some [7], none, some "http://x/a.jpg", some "a.jpg"⟩
        = false := ⟨rfl, rfl⟩

/-- C1 amended: on a successful create the strategy-selected field is always
populated (database strategy keeps `file`, disk strategy with a successful
write sets `file_path`), but exactly one source field is populated only for
an inline-file create and for a path-sourced disk create: a URL-sourced
create additionally keeps `file_url` populated under both strategies, and a
path-sourced database create additionally keeps the original `file_path`.
The mask triples below are (file, file_url, file_path). -/
theorem c1_amended_create_source_fields (cfg : MediaConfig) (env : MediaEnv)
    (hmt : cfg.mediaTypeSet = true) (b : List Nat) (hb : b ≠ [])
    (u p fn : String) (hu : u ≠ "") (hp : p ≠ "") (hfn : fn ≠ "")
    (hfmt : ∀ x y, env.formatSourcePath x y ≠ "")
    (hsplit : (pySplit '.' (slugify_filename env.slug fn)).length = 2) :
    (get_source_storage_strategy cfg = some "database" →
      (∃ r, create cfg env ⟨some b, none, none, some fn⟩ = .ok r ∧
          sourceMask r = (true, false, false)) ∧
      (env.fetch u ≠ [] →
        ∃ r, create cfg env ⟨none, some u, none, some fn⟩ = .ok r ∧
          sourceMask r = (true, true, false)) ∧
      (env.readFile p ≠ [] →
        ∃ r, create cfg env ⟨none, none, some p, some fn⟩ = .ok r ∧
          sourceMask r = (true, false, true))) ∧
    (get_source_storage_strategy cfg = some "disk" → env.writeOk = true →
      cfg.sourceDiskStoragePattern ≠ "" →
      truthyStr cfg.sourcePathPfx = true →
      (∃ r, create cfg env ⟨some b, none, none, some fn⟩ = .ok r ∧
          sourceMask r = (false, false, true)) ∧
      (env.fetch u ≠ [] →
        ∃ r, create cfg env ⟨none, some u, none, some fn⟩ = .ok r ∧
          sourceMask r = (false, true, true)) ∧
      (env.readFile p ≠ [] →
        ∃ r, create cfg env ⟨none, none, some p, some fn⟩ = .ok r ∧
          sourceMask r = (false, false, true))) := by
  constructor
  · intro hdb
    refine ⟨⟨⟨some b, none, none, some fn⟩, ?_, ?_⟩,
      fun hf => ⟨⟨some (env.fetch u), none, some u, some fn⟩, ?_, ?_⟩,
      fun hr => ⟨⟨some (env.readFile p), some p, none, some fn⟩, ?_, ?_⟩⟩
    · simp [create, numSourceFields, hmt, hdb, truthyBytes_pos hb,
        truthyStr_pos hfn]
    · simp [sourceMask, truthyBytes_pos hb]
    · simp [create, numSourceFields, hmt, hdb, truthyStr_pos hu,
        truthyStr_pos hfn, truthyBytes_pos hf]
    · simp [sourceMask, truthyBytes_pos hf, truthyStr_pos hu]
    · simp [create, numSourceFields, hmt, hdb, truthyStr_pos hp,
        truthyStr_pos hfn, truthyBytes_pos hr]
    · simp [sourceMask, truthyBytes_pos hr, truthyStr_pos hp]
  · intro hdisk hw hpat hpfx
    have hpm := isEmpty_false_of_ne hpat
    refine ⟨⟨⟨none, some (env.formatSourcePath
        ((pySplit '.' (slugify_filename env.slug fn)).headD "")
        ((pySplit '.' (slugify_filename env.slug fn)).getLastD "")),
        none, some (slugify_filename env.slug fn)⟩, ?_, ?_⟩,
      fun hf => ⟨⟨none, some (env.formatSourcePath
        ((pySplit '.' (slugify_filename env.slug fn)).headD "")
        ((pySplit '.' (slugify_filename env.slug fn)).getLastD "")),
        some u, some (slugify_filename env.slug fn)⟩, ?_, ?_⟩,
      fun hr => ⟨⟨none, some (env.formatSourcePath
        ((pySplit '.' (slugify_filename env.slug fn)).headD "")
        ((pySplit '.' (slugify_filename env.slug fn)).getLastD "")),
        none, some (slugify_filename env.slug fn)⟩, ?_, ?_⟩⟩
    · simp [create, numSourceFields, hmt, hdisk, truthyBytes_pos hb,
        truthyStr_pos hfn, hpm, hpfx, hsplit, hw]
    · simp [sourceMask, truthyStr_pos (hfmt _ _)]
    · simp [create, numSourceFields, hmt, hdisk, truthyStr_pos hu,
        truthyStr_pos hfn, truthyBytes_pos hf, hpm, hpfx, hsplit, hw]
    · simp [sourceMask, truthyStr_pos (hfmt _ _), truthyStr_pos hu]
    · simp [create, numSourceFields, hmt, hdisk, truthyStr_pos hp,
        truthyStr_pos hfn, truthyBytes_pos hr, hpm, hpfx, hsplit, hw]
    · simp [sourceMask, truthyStr_pos (hfmt _ _)]

/-- Witness for C1 amended: URL-sourced create under the database strategy. -/
theorem c1_witness :
    ∃ r, create ⟨true, some "database", "", none⟩ c1env
        ⟨none, some "u", none, some "a.jpg"⟩ = .ok r ∧
      sourceMask r = (true, true, false) :=
  ((c1_amended_create_source_fields ⟨true, some "database", "", none⟩ c1env
      rfl [1] (by decide) "u" "/p" "a.jpg" (by decide) (by decide) (by decide)
      (fun x y => by show ("/d/a.jpg" : String) ≠ ""; decide)
      (by decide)).1 (by decide)).2.1 (by decide)

/-- Environment for the C5 instances: the disk write of the source fails. -/
def c5env : MediaEnv :=
  ⟨fun _ => [7], fun _ => [9], fun _ => "a.jpg", fun s => s,
   fun _ _ => "/d/a.jpg", false⟩

/-- Disk-strategy configuration for the C5 instances. -/
def c5cfg : MediaConfig := ⟨true, some "disk", "pat", some "/tmp"⟩

/-- C5 counterexample: when the disk write raises OSError during a
file-sourced disk-strategy create, the error is only logged and the record
is still inserted — with `file` already popped and `file_path` never set, so
the persisted entity has no populated source field at all, instead of the
creation being aborted. -/
theorem c5_counterexample :
    create c5cfg c5env { file := some [1], filename := some "a.jpg" }
      = .ok ⟨none, none, none, some "a.jpg"⟩ ∧
      sourceMask ⟨none, none, none, some "a.jpg"⟩
        = (false, false, false) := ⟨rfl, rfl⟩

/-- C5 amended: a failing disk write does not abort the creation: the record
is inserted anyway, with `file` cleared and `file_path` not set to the
destination — a file-sourced create yields a record with no source field at
all, a URL-sourced create retains only `file_url`, and a path-sourced create
retains the original source path in `file_path`. -/
theorem c5_amended_write_failure (cfg : MediaConfig) (env : MediaEnv)
    (hmt : cfg.mediaTypeSet = true)
    (hdisk : get_source_storage_strategy cfg = some "disk")
    (hw : env.writeOk = false) (hpat : cfg.sourceDiskStoragePattern ≠ "")
    (hpfx : truthyStr cfg.sourcePathPfx = true)
    (b : List Nat) (hb : b ≠ []) (u p fn : String) (hu : u ≠ "") (hp : p ≠ "")
    (hfn : fn ≠ "")
    (hsplit : (pySplit '.' (slugify_filename env.slug fn)).length = 2) :
    (create cfg env ⟨some b, none, none, some fn⟩
        = .ok ⟨none, none, none, some (slugify_filename env.slug fn)⟩) ∧
      (env.fetch u ≠ [] →
        create cfg env ⟨none, some u, none, some fn⟩
          = .ok ⟨none, none, some u, some (slugify_filename env.slug fn)⟩) ∧
      (env.readFile p ≠ [] →
        create cfg env ⟨none, none, some p, some fn⟩
          = .ok ⟨none, some p, none, some (slugify_filename env.slug fn)⟩) := by
  have hpm := isEmpty_false_of_ne hpat
  refine ⟨?_, fun hf => ?_, fun hr => ?_⟩
  · simp [create, numSourceFields, hmt, hdisk, truthyBytes_pos hb,
      truthyStr_pos hfn, hpm, hpfx, hsplit, hw]
  · simp [create, numSourceFields, hmt, hdisk, truthyStr_pos hu,
      truthyStr_pos hfn, truthyBytes_pos hf, hpm, hpfx, hsplit, hw]
  · simp [create, numSourceFields, hmt, hdisk, truthyStr_pos hp,
      truthyStr_pos hfn, truthyBytes_pos hr, hpm, hpfx, hsplit, hw]

/-- Witness for C5 amended: the file-sourced case at concrete inputs. -/
theorem c5_witness :
    create c5cfg c5env ⟨some [1], none, none, some "a.jpg"⟩
      = .ok ⟨none, none, none, some (slugify_filename c5env.slug "a.jpg")⟩ :=
  (c5_amended_write_failure c5cfg c5env rfl (by decide) rfl (by decide)
    (by decide) [1] (by decide) "u" "/p" "a.jpg" (by decide) (by decide)
    (by decide) (by decide)).1

/-- Image configuration for the C2 instances: one rendition, both patterns
set. -/
def c2cfg : ImageConfig := ⟨[("thumb", ({} : ProcessItem))], "dest", "u"⟩

/-- Image environment for the C2 instances. -/
def c2env : ImageEnv := ⟨fun _ _ => "/d/t.jpg", fun _ _ => "http://u"⟩

/-- Draft image entity for the C2 instances. -/
def c2ent : ImageEntity := ⟨some "a.jpg", [], none, "draft"⟩

/-- C2 counterexample: on a draft image entity with non-empty PROCESS_PARAMS
and both destination patterns set, a successful `Image.process` call replaces
`properties` with the computed plan but leaves `state` at draft —
`Image.process` contains no state assignment, so the claimed transition to
published does not happen. -/
theorem c2_counterexample :
    imageProcess c2cfg c2env c2ent
      = some ⟨some "a.jpg", [],
          some [("thumb",
            ⟨none, none, "/d/t.jpg", "http://u", none, none, none⟩)],
          "draft"⟩ ∧
      (imageProcess c2cfg c2env c2ent).map (fun r => r.state)
        = some "draft" ∧
      (some "draft" : Option String) ≠ some "published" := ⟨rfl, rfl, by decide⟩

/-- C2 amended: with non-empty PROCESS_PARAMS and non-empty destination and
url patterns, `Image.process` succeeds and replaces `properties` wholesale
with the plan computed by `format_transformation_properties`, while `state`
is left exactly as it was (`Image.process` never modifies the state; only
the audio and video process methods publish the entity). -/
theorem c2_amended_image_process (cfg : ImageConfig) (env : ImageEnv)
    (e : ImageEntity) (hp : cfg.processParams ≠ [])
    (hd : cfg.destinationPathPattern ≠ "") (hu : cfg.urlPattern ≠ "") :
    imageProcess cfg env e
        = some { e with
            properties := format_transformation_properties cfg env } ∧
      (imageProcess cfg env e).map (fun r => r.state) = some e.state := by
  have h1 := isEmpty_false_of_ne hd
  have h2 := isEmpty_false_of_ne hu
  have h3 : cfg.processParams.isEmpty = false := by
    simp [List.isEmpty_iff, hp]
  constructor
  · simp [imageProcess, format_transformation_properties, h1, h2, h3]
  · simp [imageProcess, format_transformation_properties, h1, h2, h3]

/-- Witness for C2 amended at the concrete C2 instances. -/
theorem c2_witness :
    imageProcess c2cfg c2env c2ent
        = some { c2ent with
            properties := format_transformation_properties c2cfg c2env } ∧
      (imageProcess c2cfg c2env c2ent).map (fun r => r.state)
        = some c2ent.state :=
  c2_amended_image_process c2cfg c2env c2ent (by decide) (by decide)
    (by decide)

/-- Name of a tag returned by the name lookup. -/
theorem find?_name_eq {store : List TagRow} {tok : String} {t : TagRow}
    (h : store.find? (fun tg => tg.name = tok) = some t) : t.name = tok := by
  have := List.find?_some h
  simpa using this

/-- State for the C6 counterexample: the tag store holds a single tag named
rock with media_type video, and an audio entity with genres ["rock"]. -/
def c6st : MediaState :=
  ⟨[⟨0, "rock", "video"⟩], [],
   ⟨5, none, some "/f.mp3", none, some "f.mp3",
    [("genres", MVal.l ["rock"])], [], "draft", 0⟩,
   [], 180⟩

/-- C6 counterexample: the audio metadata hook looks tags up by name only.
With a video-typed tag named rock already in the store, synchronizing an
audio entity whose genres are ["rock"] associates that video tag (uuid 0) to
the audio entity and creates no audio-typed tag at all — while the claim
requires lookup scoped to the media_type of the updating entity and the
creation of an audio tag here. -/
theorem c6_counterexample :
    (audioBeforeUpdate 1 c6st).map (fun st => (st.tagStore, st.assocs))
        = some ([⟨0, "rock", "video"⟩], [(5, 0)]) ∧
      (audioBeforeUpdate 1 c6st).map
          (fun st => st.tagStore.filter (fun t => t.media_type = "audio"))
        = some [] := ⟨rfl, rfl⟩

/-- C6 amended: in the Audio model, each genres token is looked up by exact
name only — the first tag of any media_type with that name wins; when absent
a tag with the trimmed lower-cased name and media_type audio is created; the
hook then clears the entity associations and associates the name-matched
tag. In the Video model, `write_metadata_to_source` never associates any tag
to the entity. Stated here for a singleton normalized token. -/
theorem c6_amended_tag_sync (store : List TagRow) (assocs : List (Nat × Nat))
    (e : AvEntity) (fm : List (String × MVal)) (dur : Int) (now : Nat)
    (tok : String) (hmeta : e.meta = [("genres", MVal.l [tok])])
    (hnorm : pyLower (pyStrip tok) = tok) :
    (∀ t, store.find? (fun tg => tg.name = tok) = some t →
      audioBeforeUpdate now ⟨store, assocs, e, fm, dur⟩ = some
        ⟨store, assocs.filter (fun pr => pr.1 ≠ e.uuid) ++ [(e.uuid, t.uuid)],
         { e with properties := upsert e.properties "duration" (MVal.n dur),
                  edit_date := now },
         upsert fm "genres" (MVal.l [tok]), dur⟩) ∧
    (store.find? (fun tg => tg.name = tok) = none →
      audioBeforeUpdate now ⟨store, assocs, e, fm, dur⟩ = some
        ⟨store ++ [⟨store.length, tok, "audio"⟩],
         assocs.filter (fun pr => pr.1 ≠ e.uuid) ++ [(e.uuid, store.length)],
         { e with properties := upsert e.properties "duration" (MVal.n dur),
                  edit_date := now },
         upsert fm "genres" (MVal.l [tok]), dur⟩) ∧
    (videoBeforeUpdate now ⟨store, assocs, e, fm, dur⟩).assocs = assocs := by
  have hmem1 : ∀ t : TagRow, (e.uuid, t.uuid) ∉
      assocs.filter (fun pr => pr.1 ≠ e.uuid) := by
    intro t hmem
    have := (List.mem_filter.mp hmem).2
    simp at this
  refine ⟨fun t ht => ?_, fun hn => ?_, ?_⟩
  · have hname := find?_name_eq ht
    simp [audioBeforeUpdate, audioWriteMetadataToSource, audioApplyMeta,
      audioApplyMetaField, audioResolveAll, audioResolveTag, audioHookGenres,
      mediaTagInsert, iterTokens, alookup, hmeta, ht, hname, hmem1 t]
  · simp [audioBeforeUpdate, audioWriteMetadataToSource, audioApplyMeta,
      audioApplyMetaField, audioResolveAll, audioResolveTag, audioHookGenres,
      mediaTagInsert, iterTokens, alookup, hmeta, hn, hnorm,
      List.find?_append, hmem1 ⟨store.length, tok, "audio"⟩]
  · simp only [videoBeforeUpdate, videoWriteMetadataToSource]
    by_cases h : e.meta.isEmpty <;> simp [h]

/-- Witness for C6 amended: the miss case on an empty tag store with the
normalized token rock. -/
theorem c6_witness :
    audioBeforeUpdate 1
        ⟨[], [], ⟨5, none, some "/f.mp3", none, some "f.mp3",
          [("genres", MVal.l ["rock"])], [], "draft", 0⟩, [], 180⟩
      = some
        ⟨[⟨0, "rock", "audio"⟩], [(5, 0)],
         ⟨5, none, some "/f.mp3", none, some "f.mp3",
          [("genres", MVal.l ["rock"])], [("duration", MVal.n 180)],
          "draft", 1⟩,
         [("genres", MVal.l ["rock"])], 180⟩ :=
  (c6_amended_tag_sync [] []
    ⟨5, none, some "/f.mp3", none, some "f.mp3",
     [("genres", MVal.l ["rock"])], [], "draft", 0⟩
    [] 180 1 "rock" rfl (by decide)).2.1 rfl

/-- State for the C7 counterexample: an audio entity with the non-normalized
genres token Rock and an empty tag store. -/
def c7st : MediaState :=
  ⟨[], [], ⟨5, none, some "/f.mp3", none, some "f.mp3",
    [("genres", MVal.l ["Rock"])], [], "draft", 0⟩, [], 180⟩

/-- C7 counterexample: applying the same meta with the genres token Rock
twice does not yield the same tag set as applying it once. The name lookup
uses the raw token while the insert stores the normalized name, so the first
application creates two duplicate rock tags and associates tag 1, and the
second application creates two more duplicates and associates tag 3. -/
theorem c7_counterexample :
    ((audioBeforeUpdate 1 c7st).map (fun st => st.assocs)
        = some [(5, 1)]) ∧
      (((audioBeforeUpdate 1 c7st).bind (audioBeforeUpdate 1)).map
          (fun st => st.assocs) = some [(5, 3)]) ∧
      ((audioBeforeUpdate 1 c7st).map (fun st => st.tagStore.length)
        = some 2) ∧
      (((audioBeforeUpdate 1 c7st).bind (audioBeforeUpdate 1)).map
          (fun st => st.tagStore.length) = some 4) ∧
      (some [(5, 1)] : Option (List (Nat × Nat))) ≠ some [(5, 3)] := by
  refine ⟨by decide, by decide, by decide, by decide, by decide⟩

/-- Well-formedness of the tag store: every uuid is below the store length
(so the insertion-index model of uuid4 stays fresh) and uuids are unique. -/
def StoreInv (S : List TagRow) : Prop :=
  (∀ t ∈ S, t.uuid < S.length) ∧ (S.map (fun t => t.uuid)).Nodup

/-- Every token of the list has a name match in the store. -/
def AllFound (S : List TagRow) (toks : List String) : Prop :=
  ∀ tok ∈ toks, ∃ t, S.find? (fun tg => tg.name = tok) = some t

/-- Sequential dict assignments, one upsert per item. -/
def applyUpserts (f : List (String × MVal)) :
    List (String × MVal) → List (String × MVal)
  | [] => f
  | item :: rest => applyUpserts (upsert f item.1 item.2) rest

/-- Meta item that takes the special genres branch of
`Audio.write_metadata_to_source`: key genres with a non-empty list value. -/
def genresTrigger (item : String × MVal) : Bool :=
  item.1 == "genres" &&
    match item.2 with
    | MVal.l toks => !toks.isEmpty
    | _ => false

/-- Some meta item takes the special genres branch. -/
def hasGenresList (items : List (String × MVal)) : Bool :=
  items.any genresTrigger

/-- Uuid of the first tag matching a token by name (0 placeholder on miss). -/
def resolvedUuid (S : List TagRow) (tok : String) : Nat :=
  ((S.find? (fun tg => tg.name = tok)).getD ⟨0, "", ""⟩).uuid

/-- Join-table rows inserted by the genres loop of the audio hook when every
token already has a name match in the store. -/
def hookPairs (S : List TagRow) (u : Nat) (toks : List String) :
    List (Nat × Nat) :=
  toks.map (fun tok => (u, resolvedUuid S tok))

/-- Lookup after assignment of the same key. -/
theorem alookup_upsert_self (f : List (String × MVal)) (k : String)
    (v : MVal) : alookup (upsert f k v) k = some v := by
  induction f with
  | nil => simp [upsert, alookup]
  | cons hd tl ih =>
      obtain ⟨k1, v1⟩ := hd
      by_cases h : k1 = k <;> simp [upsert, alookup, h, ih]

/-- Lookup after assignment of another key. -/
theorem alookup_upsert_ne {k2 k : String} (h : k2 ≠ k)
    (f : List (String × MVal)) (v : MVal) :
    alookup (upsert f k2 v) k = alookup f k := by
  induction f with
  | nil => simp [upsert, alookup, h]
  | cons hd tl ih =>
      obtain ⟨k1, v1⟩ := hd
      by_cases h1 : k1 = k2
      · subst h1
        simp [upsert, alookup, h, Ne.symm h]
      · by_cases h2 : k1 = k <;>
          simp [upsert, alookup, h1, h2, ih, Ne.symm h]

/-- Assigning a value the dict already holds at that key changes nothing. -/
theorem upsert_lookup_eq {f : List (String × MVal)} {k : String} {v : MVal}
    (h : alookup f k = some v) : upsert f k v = f := by
  induction f with
  | nil => simp [alookup] at h
  | cons hd tl ih =>
      obtain ⟨k1, v1⟩ := hd
      by_cases h1 : k1 = k
      · subst h1
        simp [alookup] at h
        simp [upsert, h]
      · simp [alookup, h1] at h
        simp [upsert, h1, ih h]

/-- Re-assigning the same key and value is the identity. -/
theorem upsert_upsert_same (f : List (String × MVal)) (k : String)
    (v : MVal) : upsert (upsert f k v) k v = upsert f k v :=
  upsert_lookup_eq (alookup_upsert_self f k v)

/-- Assignments of other keys do not change a lookup. -/
theorem alookup_applyUpserts_notin {k : String}
    {items : List (String × MVal)} (h : ∀ item ∈ items, item.1 ≠ k)
    (f : List (String × MVal)) :
    alookup (applyUpserts f items) k = alookup f k := by
  induction items generalizing f with
  | nil => rfl
  | cons item rest ih =>
      rw [applyUpserts, ih (fun it hm => h it (List.mem_cons_of_mem _ hm)),
        alookup_upsert_ne (h item (List.mem_cons_self _ _)) f item.2]

/-- A sequence of dict assignments with pairwise distinct keys is
idempotent. -/
theorem applyUpserts_idem (items : List (String × MVal))
    (hkeys : (items.map Prod.fst).Nodup) (f : List (String × MVal)) :
    applyUpserts (applyUpserts f items) items = applyUpserts f items := by
  induction items generalizing f with
  | nil => rfl
  | cons item rest ih =>
      obtain ⟨k, v⟩ := item
      simp only [List.map_cons, List.nodup_cons] at hkeys
      have hk : ∀ it ∈ rest, it.1 ≠ k := by
        intro it hm he
        exact hkeys.1 (he ▸ List.mem_map_of_mem Prod.fst hm)
      have hlk : alookup (applyUpserts (upsert f k v) rest) k = some v := by
        rw [alookup_applyUpserts_notin hk, alookup_upsert_self]
      simp only [applyUpserts]
      rw [upsert_lookup_eq hlk]
      exact ih hkeys.2 (upsert f k v)

/-- Lookup success puts the pair in the dict. -/
theorem alookup_mem {items : List (String × MVal)} {k : String} {v : MVal}
    (h : alookup items k = some v) : (k, v) ∈ items := by
  induction items with
  | nil => simp [alookup] at h
  | cons hd tl ih =>
      obtain ⟨k1, v1⟩ := hd
      by_cases h1 : k1 = k
      · subst h1
        simp [alookup] at h
        simp [h]
      · simp [alookup, h1] at h
        exact List.mem_cons_of_mem _ (ih h)

/-- Lookup failure means no item carries the key. -/
theorem alookup_none_keys {items : List (String × MVal)} {k : String}
    (h : alookup items k = none) : ∀ item ∈ items, item.1 ≠ k := by
  induction items with
  | nil => intro item hm; simp at hm
  | cons hd tl ih =>
      obtain ⟨k1, v1⟩ := hd
      by_cases h1 : k1 = k
      · subst h1; simp [alookup] at h
      · intro item hm
        rcases List.mem_cons.mp hm with h2 | h2
        · subst h2; exact h1
        · simp [alookup, h1] at h
          exact ih h item h2

/-- With pairwise distinct keys, membership determines the lookup. -/
theorem alookup_eq_of_mem_nodup {items : List (String × MVal)} {k : String}
    {v : MVal} (hkeys : (items.map Prod.fst).Nodup) (hm : (k, v) ∈ items) :
    alookup items k = some v := by
  induction items with
  | nil => simp at hm
  | cons hd tl ih =>
      obtain ⟨k1, v1⟩ := hd
      simp only [List.map_cons, List.nodup_cons] at hkeys
      rcases List.mem_cons.mp hm with h2 | h2
      · cases h2
        simp [alookup]
      · by_cases h1 : k1 = k
        · subst h1
          exact absurd (List.mem_map_of_mem Prod.fst h2) (by simpa using hkeys.1)
        · simp [alookup, h1]
          exact ih hkeys.2 h2

/-- Store well-formedness survives inserting a fresh tag at the end. -/
theorem storeInv_insert {S : List TagRow} (hinv : StoreInv S) (nm mt : String) :
    StoreInv (S ++ [⟨S.length, nm, mt⟩]) := by
  constructor
  · intro t hm
    rcases List.mem_append.mp hm with h | h
    · have := hinv.1 t h
      simp only [List.length_append, List.length_singleton]
      omega
    · simp only [List.mem_singleton] at h
      subst h
      simp only [List.length_append, List.length_singleton]
      omega
  · rw [List.map_append, List.nodup_append]
    refine ⟨hinv.2, List.nodup_singleton _, ?_⟩
    intro x hx hy
    simp only [List.map_cons, List.map_nil, List.mem_singleton] at hy
    obtain ⟨t, htm, rfl⟩ := List.mem_map.mp hx
    have := hinv.1 t htm
    omega

/-- Tags with equal uuids in a well-formed store are the same row. -/
theorem storeInv_inj {S : List TagRow} (hinv : StoreInv S) {a b : TagRow}
    (ha : a ∈ S) (hb : b ∈ S) (h : a.uuid = b.uuid) : a = b :=
  List.inj_on_of_nodup_map hinv.2 ha hb h

/-- Name matches survive appending to the store. -/
theorem allFound_append {S : List TagRow} {toks : List String}
    (h : AllFound S toks) (d : List TagRow) : AllFound (S ++ d) toks := by
  intro tok hm
  obtain ⟨t, ht⟩ := h tok hm
  exact ⟨t, by rw [List.find?_append, ht]; rfl⟩

/-- The genres resolution loop only appends to the tag store. -/
theorem audioResolveAll_store (S : List TagRow) (toks : List String) :
    ∃ d, (audioResolveAll S toks).1 = S ++ d := by
  induction toks generalizing S with
  | nil => exact ⟨[], by simp [audioResolveAll]⟩
  | cons tok rest ih =>
      simp only [audioResolveAll, audioResolveTag]
      cases hfind : S.find? (fun tg => tg.name = tok) with
      | some t => simpa using ih S
      | none =>
          obtain ⟨d, hd⟩ := ih (S ++ [⟨S.length, pyLower (pyStrip tok), "audio"⟩])
          exact ⟨⟨S.length, pyLower (pyStrip tok), "audio"⟩ :: d, by
            simp [hd]⟩

/-- With normalized tokens, the genres resolution loop returns exactly the
token list as the resolved names. -/
theorem audioResolveAll_names {toks : List String}
    (hnorm : ∀ t ∈ toks, pyLower (pyStrip t) = t) (S : List TagRow) :
    (audioResolveAll S toks).2 = toks := by
  induction toks generalizing S with
  | nil => simp [audioResolveAll]
  | cons tok rest ih =>
      simp only [audioResolveAll, audioResolveTag]
      cases hfind : S.find? (fun tg => tg.name = tok) with
      | some t =>
          simp [find?_name_eq hfind,
            ih (fun t ht => hnorm t (List.mem_cons_of_mem _ ht)) S]
      | none =>
          simp [hnorm tok (List.mem_cons_self _ _),
            ih (fun t ht => hnorm t (List.mem_cons_of_mem _ ht)) _]

/-- The genres resolution loop preserves store well-formedness. -/
theorem audioResolveAll_inv {S : List TagRow} (hinv : StoreInv S)
    (toks : List String) : StoreInv (audioResolveAll S toks).1 := by
  induction toks generalizing S with
  | nil => simpa [audioResolveAll] using hinv
  | cons tok rest ih =>
      simp only [audioResolveAll, audioResolveTag]
      cases hfind : S.find? (fun tg => tg.name = tok) with
      | some t => simpa using ih hinv
      | none => simpa using ih (storeInv_insert hinv _ _)

/-- After the genres resolution loop with normalized tokens, every token has
a name match in the resulting store. -/
theorem audioResolveAll_found {toks : List String}
    (hnorm : ∀ t ∈ toks, pyLower (pyStrip t) = t) (S : List TagRow) :
    AllFound (audioResolveAll S toks).1 toks := by
  induction toks generalizing S with
  | nil => intro tok hm; simp at hm
  | cons tok rest ih =>
      simp only [audioResolveAll, audioResolveTag]
      cases hfind : S.find? (fun tg => tg.name = tok) with
      | some t =>
          intro tok2 hm2
          rcases List.mem_cons.mp hm2 with h2 | h2
          · subst h2
            obtain ⟨d, hd⟩ := audioResolveAll_store S rest
            refine ⟨t, ?_⟩
            simp only [hd, List.find?_append, hfind]
            rfl
          · exact ih (fun t ht => hnorm t (List.mem_cons_of_mem _ ht)) S
              tok2 h2
      | none =>
          intro tok2 hm2
          rcases List.mem_cons.mp hm2 with h2 | h2
          · subst h2
            obtain ⟨d, hd⟩ := audioResolveAll_store
              (S ++ [⟨S.length, pyLower (pyStrip tok2), "audio"⟩]) rest
            refine ⟨⟨S.length, pyLower (pyStrip tok2), "audio"⟩, ?_⟩
            simp only [hd, List.find?_append, hfind, List.find?_cons,
              List.find?_nil]
            simp [hnorm tok2 (List.mem_cons_self _ _)]
          · exact ih (fun t ht => hnorm t (List.mem_cons_of_mem _ ht)) _
              tok2 h2

/-- When every token already has a name match, the genres resolution loop
changes nothing and resolves each token to its own name. -/
theorem audioResolveAll_stable {S : List TagRow} {toks : List String}
    (hall : AllFound S toks) : audioResolveAll S toks = (S, toks) := by
  induction toks with
  | nil => simp [audioResolveAll]
  | cons tok rest ih =>
      obtain ⟨t, ht⟩ := hall tok (List.mem_cons_self _ _)
      simp only [audioResolveAll, audioResolveTag, ht]
      simp [find?_name_eq ht,
        ih (fun t2 h2 => hall t2 (List.mem_cons_of_mem _ h2))]

/-- A non-triggering meta item leaves the tag store unchanged. -/
theorem audioApplyMetaField_store_of_not_trigger {item : String × MVal}
    (h : genresTrigger item = false) (u : Nat)
    (acc : List TagRow × List (Nat × Nat) × List (String × MVal)) :
    (audioApplyMetaField u acc item).1 = acc.1 := by
  obtain ⟨k, v⟩ := item
  by_cases hk : k = "genres"
  · subst hk
    cases v with
    | l toks =>
        simp only [genresTrigger, beq_self_eq_true, Bool.true_and] at h
        have : toks.isEmpty = true := by simpa using h
        simp [audioApplyMetaField, this]
    | s s1 => simp [audioApplyMetaField]
    | n n1 => simp [audioApplyMetaField]
  · simp [audioApplyMetaField, hk]

/-- A triggering meta item rewrites the store through the resolution loop
and replaces the associations with the cleared list. -/
theorem audioApplyMetaField_of_trigger {toks : List String}
    (hne : toks ≠ []) (u : Nat)
    (acc : List TagRow × List (Nat × Nat) × List (String × MVal)) :
    audioApplyMetaField u acc ("genres", MVal.l toks)
      = ((audioResolveAll acc.1 toks).1,
         acc.2.1.filter (fun pr => pr.1 ≠ u),
         upsert acc.2.2 "genres" (MVal.l (audioResolveAll acc.1 toks).2)) := by
  have : toks.isEmpty = false := by simp [List.isEmpty_iff, hne]
  simp [audioApplyMetaField, this]

/-- One meta item only appends to the tag store. -/
theorem audioApplyMetaField_store (u : Nat)
    (acc : List TagRow × List (Nat × Nat) × List (String × MVal))
    (item : String × MVal) :
    ∃ d, (audioApplyMetaField u acc item).1 = acc.1 ++ d := by
  cases htr : genresTrigger item with
  | false => exact ⟨[], by simp [audioApplyMetaField_store_of_not_trigger htr]⟩
  | true =>
      obtain ⟨k, v⟩ := item
      simp only [genresTrigger, Bool.and_eq_true, beq_iff_eq] at htr
      obtain ⟨rfl, hv⟩ := htr
      cases v with
      | l toks =>
          have hne : toks ≠ [] := by
            intro h
            subst h
            simp at hv
          rw [audioApplyMetaField_of_trigger hne]
          exact audioResolveAll_store acc.1 toks
      | s s1 => simp at hv
      | n n1 => simp at hv

/-- The meta loop only appends to the tag store. -/
theorem audioApplyMeta_store (u : Nat) (items : List (String × MVal))
    (acc : List TagRow × List (Nat × Nat) × List (String × MVal)) :
    ∃ d, (audioApplyMeta u acc items).1 = acc.1 ++ d := by
  induction items generalizing acc with
  | nil => exact ⟨[], by simp [audioApplyMeta]⟩
  | cons item rest ih =>
      obtain ⟨d1, h1⟩ := audioApplyMetaField_store u acc item
      obtain ⟨d2, h2⟩ := ih (audioApplyMetaField u acc item)
      exact ⟨d1 ++ d2, by rw [audioApplyMeta, h2, h1, List.append_assoc]⟩

/-- The meta loop preserves store well-formedness. -/
theorem audioApplyMeta_inv (u : Nat) (items : List (String × MVal))
    {acc : List TagRow × List (Nat × Nat) × List (String × MVal)}
    (hinv : StoreInv acc.1) : StoreInv (audioApplyMeta u acc items).1 := by
  induction items generalizing acc with
  | nil => simpa [audioApplyMeta] using hinv
  | cons item rest ih =>
      rw [audioApplyMeta]
      refine ih ?_
      cases htr : genresTrigger item with
      | false => rwa [audioApplyMetaField_store_of_not_trigger htr]
      | true =>
          obtain ⟨k, v⟩ := item
          simp only [genresTrigger, Bool.and_eq_true, beq_iff_eq] at htr
          obtain ⟨rfl, hv⟩ := htr
          cases v with
          | l toks =>
              have hne : toks ≠ [] := by
                intro h; subst h; simp at hv
              rw [audioApplyMetaField_of_trigger hne]
              exact audioResolveAll_inv hinv toks
          | s s1 => simp at hv
          | n n1 => simp at hv

/-- The meta loop filters the associations exactly when some item triggers
the genres branch. -/
theorem audioApplyMeta_assocs (u : Nat) (items : List (String × MVal))
    (acc : List TagRow × List (Nat × Nat) × List (String × MVal)) :
    (audioApplyMeta u acc items).2.1
      = if hasGenresList items
        then acc.2.1.filter (fun pr => pr.1 ≠ u) else acc.2.1 := by
  induction items generalizing acc with
  | nil => simp [audioApplyMeta, hasGenresList]
  | cons item rest ih =>
      rw [audioApplyMeta]
      have hcons : hasGenresList (item :: rest)
          = (genresTrigger item || hasGenresList rest) := by
        simp [hasGenresList, List.any_cons]
      cases htr : genresTrigger item with
      | false =>
          have hacc : (audioApplyMetaField u acc item).2.1 = acc.2.1 := by
            obtain ⟨k, v⟩ := item
            by_cases hk : k = "genres"
            · subst hk
              cases v with
              | l toks =>
                  simp only [genresTrigger, beq_self_eq_true,
                    Bool.true_and] at htr
                  have : toks.isEmpty = true := by simpa using htr
                  simp [audioApplyMetaField, this]
              | s s1 => simp [audioApplyMetaField]
              | n n1 => simp [audioApplyMetaField]
            · simp [audioApplyMetaField, hk]
          rw [ih, hacc, hcons, htr, Bool.false_or]
      | true =>
          obtain ⟨k, v⟩ := item
          simp only [genresTrigger, Bool.and_eq_true, beq_iff_eq] at htr
          obtain ⟨rfl, hv⟩ := htr
          cases v with
          | l toks =>
              have hne : toks ≠ [] := by
                intro h; subst h; simp at hv
              rw [ih, audioApplyMetaField_of_trigger hne]
              have hfilt : (acc.2.1.filter (fun pr => pr.1 ≠ u)).filter
                  (fun pr => pr.1 ≠ u)
                  = acc.2.1.filter (fun pr => pr.1 ≠ u) := by
                rw [List.filter_filter]
                simp
              have htr2 : genresTrigger ("genres", MVal.l toks) = true := by
                simpa [genresTrigger] using hv
              simp [hcons, hasGenresList, htr2, hfilt]
          | s s1 => simp at hv
          | n n1 => simp at hv

/-- With normalized genres tokens, the meta loop writes every meta item
verbatim into the file dict, in order. -/
theorem audioApplyMeta_fileMeta (u : Nat) {items : List (String × MVal)}
    (hn : ∀ item ∈ items, ∀ toks, item.1 = "genres" →
      item.2 = MVal.l toks → ∀ t ∈ toks, pyLower (pyStrip t) = t)
    (acc : List TagRow × List (Nat × Nat) × List (String × MVal)) :
    (audioApplyMeta u acc items).2.2 = applyUpserts acc.2.2 items := by
  induction items generalizing acc with
  | nil => simp [audioApplyMeta, applyUpserts]
  | cons item rest ih =>
      rw [audioApplyMeta, applyUpserts]
      have hstep : (audioApplyMetaField u acc item).2.2
          = upsert acc.2.2 item.1 item.2 := by
        obtain ⟨k, v⟩ := item
        by_cases hk : k = "genres"
        · subst hk
          cases v with
          | l toks =>
              cases hte : toks.isEmpty with
              | true => simp [audioApplyMetaField, hte]
              | false =>
                  have hne : toks ≠ [] := by
                    intro h; subst h; simp at hte
                  rw [audioApplyMetaField_of_trigger hne]
                  rw [audioResolveAll_names
                    (hn _ (List.mem_cons_self _ _) toks rfl rfl) acc.1]
          | s s1 => simp [audioApplyMetaField]
          | n n1 => simp [audioApplyMetaField]
        · simp [audioApplyMetaField, hk]
      rw [← hstep]
      exact ih (fun it hm => hn it (List.mem_cons_of_mem _ hm)) _

/-- After the meta loop, the tokens of any genres item with normalized
tokens all have a name match in the resulting store. -/
theorem audioApplyMeta_found (u : Nat) {items : List (String × MVal)}
    {toks : List String} (hmem : ("genres", MVal.l toks) ∈ items)
    (hnorm : ∀ t ∈ toks, pyLower (pyStrip t) = t)
    (acc : List TagRow × List (Nat × Nat) × List (String × MVal)) :
    AllFound (audioApplyMeta u acc items).1 toks := by
  induction items generalizing acc with
  | nil => simp at hmem
  | cons item rest ih =>
      rw [audioApplyMeta]
      rcases List.mem_cons.mp hmem with h2 | h2
      · subst h2
        cases hte : toks.isEmpty with
        | true =>
            intro tok hm
            have : toks = [] := by simpa [List.isEmpty_iff] using hte
            subst this
            simp at hm
        | false =>
            have hne : toks ≠ [] := by
              intro h; subst h; simp at hte
            rw [audioApplyMetaField_of_trigger hne]
            obtain ⟨d, hd⟩ := audioApplyMeta_store u rest
              ((audioResolveAll acc.1 toks).1,
               acc.2.1.filter (fun pr => pr.1 ≠ u),
               upsert acc.2.2 "genres"
                 (MVal.l (audioResolveAll acc.1 toks).2))
            rw [hd]
            exact allFound_append (audioResolveAll_found hnorm acc.1) d
      · exact ih h2 _

/-- When the tokens of every triggering genres item are already matched in
the store, the meta loop leaves the store unchanged. -/
theorem audioApplyMeta_stable (u : Nat) {items : List (String × MVal)}
    (acc : List TagRow × List (Nat × Nat) × List (String × MVal))
    (htrig : ∀ item ∈ items, ∀ toks, item.1 = "genres" →
      item.2 = MVal.l toks → AllFound acc.1 toks) :
    (audioApplyMeta u acc items).1 = acc.1 := by
  induction items generalizing acc with
  | nil => simp [audioApplyMeta]
  | cons item rest ih =>
      rw [audioApplyMeta]
      have hstep : (audioApplyMetaField u acc item).1 = acc.1 := by
        cases htr : genresTrigger item with
        | false => exact audioApplyMetaField_store_of_not_trigger htr u acc
        | true =>
            obtain ⟨k, v⟩ := item
            simp only [genresTrigger, Bool.and_eq_true, beq_iff_eq] at htr
            obtain ⟨rfl, hv⟩ := htr
            cases v with
            | l toks =>
                have hne : toks ≠ [] := by
                  intro h; subst h; simp at hv
                rw [audioApplyMetaField_of_trigger hne]
                rw [audioResolveAll_stable
                  (htrig _ (List.mem_cons_self _ _) toks rfl rfl)]
            | s s1 => simp at hv
            | n n1 => simp at hv
      rw [← hstep] at htrig ⊢
      exact ih _ (fun it hm => htrig it (List.mem_cons_of_mem _ hm))

/-- When every token already has a name match in a well-formed store and no
conflicting join rows exist, the genres loop of the audio hook succeeds,
leaves the store unchanged, and appends exactly the resolved pairs. -/
theorem audioHookGenres_found {S : List TagRow} {toks : List String}
    (hall : AllFound S toks) (hnd : toks.Nodup) (hinv : StoreInv S)
    (u : Nat) (A : List (Nat × Nat))
    (hA : ∀ x, (u, x) ∈ A → x ∉ toks.map (resolvedUuid S)) :
    audioHookGenres u toks S A = some (S, A ++ hookPairs S u toks) := by
  induction toks generalizing A with
  | nil => simp [audioHookGenres, hookPairs]
  | cons tok rest ih =>
      obtain ⟨t, ht⟩ := hall tok (List.mem_cons_self _ _)
      have hres : resolvedUuid S tok = t.uuid := by
        simp [resolvedUuid, ht]
      have hnotmem : (u, t.uuid) ∉ A := by
        intro hmem
        refine hA t.uuid hmem ?_
        exact List.mem_map.mpr ⟨tok, List.mem_cons_self _ _, by
          simp [hres]⟩
      rw [audioHookGenres]
      simp only [audioResolveTag, ht, mediaTagInsert, if_neg hnotmem]
      have hrec := ih (fun t2 h2 => hall t2 (List.mem_cons_of_mem _ h2))
        (List.nodup_cons.mp hnd).2 (A ++ [(u, t.uuid)]) ?_
      · rw [hrec]
        simp [hookPairs, hres]
      · intro x hx hmapx
        rcases List.mem_append.mp hx with h3 | h3
        · exact hA x h3 (by
            simp only [List.map_cons]
            exact List.mem_cons_of_mem _ hmapx)
        · simp only [List.mem_singleton, Prod.mk.injEq] at h3
          obtain ⟨d, hd⟩ := List.mem_map.mp hmapx
          obtain ⟨t2, ht2⟩ := hall d (List.mem_cons_of_mem _ hd.1)
          have hu2 : resolvedUuid S d = t2.uuid := by
            simp [resolvedUuid, ht2]
          have heq : t2 = t := by
            refine storeInv_inj hinv (List.mem_of_find?_eq_some ht2)
              (List.mem_of_find?_eq_some ht) ?_
            rw [← hu2, hd.2, ← h3.2]
          have : d = tok := by
            rw [← find?_name_eq ht2, heq, find?_name_eq ht]
          exact (List.nodup_cons.mp hnd).1 (this ▸ hd.1)

/-- The hook pairs all carry the entity uuid, so clearing removes them. -/
theorem hookPairs_filter (S : List TagRow) (u : Nat) (toks : List String) :
    (hookPairs S u toks).filter (fun pr => pr.1 ≠ u) = [] := by
  induction toks with
  | nil => simp [hookPairs]
  | cons tok rest ih => simp [hookPairs, List.filter_cons] at ih ⊢

/-- No genres key in the dict means no item triggers the genres branch. -/
theorem hasGenresList_false_of_none {items : List (String × MVal)}
    (h : alookup items "genres" = none) : hasGenresList items = false := by
  have hk := alookup_none_keys h
  simp only [hasGenresList, List.any_eq_false]
  intro item hm
  simp [genresTrigger, hk item hm]

/-- With pairwise distinct keys, the genres branch triggers exactly when the
genres key maps to a non-empty list. -/
theorem hasGenresList_of_alookup {items : List (String × MVal)}
    {toks : List String} (hkeys : (items.map Prod.fst).Nodup)
    (halk : alookup items "genres" = some (MVal.l toks)) :
    hasGenresList items = !toks.isEmpty := by
  induction items with
  | nil => simp [alookup] at halk
  | cons hd tl ih =>
      obtain ⟨k1, v1⟩ := hd
      simp only [List.map_cons, List.nodup_cons] at hkeys
      by_cases h1 : k1 = "genres"
      · subst h1
        simp only [alookup, if_pos, Option.some.injEq] at halk
        subst halk
        have htl : alookup tl "genres" = none := by
          cases htl : alookup tl "genres" with
          | none => rfl
          | some v2 =>
              exact absurd (List.mem_map_of_mem Prod.fst (alookup_mem htl))
                (by simpa using hkeys.1)
        have h2 : tl.any genresTrigger = false :=
          hasGenresList_false_of_none htl
        simp only [hasGenresList, List.any_cons, h2, Bool.or_false]
        simp [genresTrigger]
      · simp only [alookup, if_neg h1] at halk
        have hb : (k1 == "genres") = false := by simp [h1]
        simp only [hasGenresList, List.any_cons, genresTrigger, hb,
          Bool.false_and, Bool.false_or]
        exact ih hkeys.2 halk

/-- C7 amended: the before-update metadata synchronization of the Audio
model is idempotent provided every genres token is already trimmed and
lower-cased and the tokens are pairwise distinct (and the tag store is
well-formed): reapplying the same non-empty meta reproduces the exact same
state — same tag store, same tag associations, same serialized source
metadata. For a non-normalized token this fails (see the counterexample):
each application inserts fresh duplicate tag rows and re-associates a new
one, because the lookup uses the raw token while the insert stores the
normalized name. -/
theorem c7_amended_idempotent (st st1 : MediaState) (now : Nat)
    (hkeys : (st.entity.meta.map Prod.fst).Nodup)
    (hgen : ∀ v, alookup st.entity.meta "genres" = some v →
      ∃ toks, v = MVal.l toks ∧ toks.Nodup ∧
        ∀ t ∈ toks, pyLower (pyStrip t) = t)
    (hinv : StoreInv st.tagStore)
    (h1 : audioBeforeUpdate now st = some st1) :
    audioBeforeUpdate now st1 = some st1 := by
  obtain ⟨S0, A0, ⟨u, f, fp, fu, fn, meta, props, s, d⟩, F0, dur⟩ := st
  simp only at hkeys hgen hinv
  cases hm : meta.isEmpty with
  | true =>
      have hme : meta = [] := by simpa using hm
      subst hme
      simp only [audioBeforeUpdate, List.isEmpty_nil, if_true] at h1
      injection h1 with h1
      subst h1
      rfl
  | false =>
      have hn : ∀ item ∈ meta, ∀ toks2, item.1 = "genres" →
          item.2 = MVal.l toks2 → ∀ t ∈ toks2, pyLower (pyStrip t) = t := by
        intro item hitem toks2 hk hv t ht
        obtain ⟨k, v⟩ := item
        simp only at hk hv
        subst hk
        subst hv
        obtain ⟨toks, hveq, _, hnorm⟩ :=
          hgen _ (alookup_eq_of_mem_nodup hkeys hitem)
        cases hveq
        exact hnorm t ht
      have hfm2 : ∀ acc2 : List TagRow × List (Nat × Nat) ×
          List (String × MVal),
          acc2.2.2 = (audioApplyMeta u (S0, A0, F0) meta).2.2 →
          (audioApplyMeta u acc2 meta).2.2
            = (audioApplyMeta u (S0, A0, F0) meta).2.2 := by
        intro acc2 hacc
        rw [audioApplyMeta_fileMeta u hn, hacc,
          audioApplyMeta_fileMeta u hn]
        exact applyUpserts_idem meta hkeys _
      simp only [audioBeforeUpdate, audioWriteMetadataToSource, hm,
        Bool.false_eq_true, if_false] at h1
      cases halk : alookup meta "genres" with
      | none =>
          have htrig : ∀ item ∈ meta, ∀ toks2, item.1 = "genres" →
              item.2 = MVal.l toks2 →
              AllFound (audioApplyMeta u (S0, A0, F0) meta).1 toks2 := by
            intro item hitem toks2 hk _
            exact absurd hk (alookup_none_keys halk item hitem)
          simp only [halk] at h1
          injection h1 with h1
          subst h1
          simp only [audioBeforeUpdate, audioWriteMetadataToSource, hm,
            Bool.false_eq_true, if_false, halk]
          have stable2 : (audioApplyMeta u
              ((audioApplyMeta u (S0, A0, F0) meta).1,
               (audioApplyMeta u (S0, A0, F0) meta).2.1,
               (audioApplyMeta u (S0, A0, F0) meta).2.2) meta).1
              = (audioApplyMeta u (S0, A0, F0) meta).1 :=
            audioApplyMeta_stable u _ htrig
          have assoc2 : (audioApplyMeta u
              ((audioApplyMeta u (S0, A0, F0) meta).1,
               (audioApplyMeta u (S0, A0, F0) meta).2.1,
               (audioApplyMeta u (S0, A0, F0) meta).2.2) meta).2.1
              = (audioApplyMeta u (S0, A0, F0) meta).2.1 := by
            rw [audioApplyMeta_assocs, hasGenresList_false_of_none halk]
            simp
          rw [stable2, assoc2, hfm2 _ rfl, upsert_upsert_same]
      | some v =>
          obtain ⟨toks, rfl, hnd, hnorm⟩ := hgen v halk
          have hfound : AllFound (audioApplyMeta u (S0, A0, F0) meta).1
              toks :=
            audioApplyMeta_found u (alookup_mem halk) hnorm _
          have hinv1 : StoreInv (audioApplyMeta u (S0, A0, F0) meta).1 :=
            audioApplyMeta_inv u meta hinv
          have hgl := hasGenresList_of_alookup hkeys halk
          have htrig2 : ∀ item ∈ meta, ∀ toks2, item.1 = "genres" →
              item.2 = MVal.l toks2 →
              AllFound (audioApplyMeta u (S0, A0, F0) meta).1 toks2 := by
            intro item hitem toks2 hk hv
            obtain ⟨k, v2⟩ := item
            simp only at hk hv
            subst hk
            subst hv
            have := alookup_eq_of_mem_nodup hkeys hitem
            rw [halk] at this
            injection this with this
            injection this with this
            subst this
            exact hfound
          cases hte : toks.isEmpty with
          | true =>
              have htoks : toks = [] := by simpa using hte
              subst htoks
              rw [hte] at hgl
              simp only [halk, iterTokens, audioHookGenres] at h1
              injection h1 with h1
              subst h1
              simp only [audioBeforeUpdate, audioWriteMetadataToSource, hm,
                Bool.false_eq_true, if_false, halk, iterTokens,
                audioHookGenres]
              have stable2 : (audioApplyMeta u
                  ((audioApplyMeta u (S0, A0, F0) meta).1,
                   (audioApplyMeta u (S0, A0, F0) meta).2.1,
                   (audioApplyMeta u (S0, A0, F0) meta).2.2) meta).1
                  = (audioApplyMeta u (S0, A0, F0) meta).1 :=
                audioApplyMeta_stable u _ htrig2
              have assoc2 : (audioApplyMeta u
                  ((audioApplyMeta u (S0, A0, F0) meta).1,
                   (audioApplyMeta u (S0, A0, F0) meta).2.1,
                   (audioApplyMeta u (S0, A0, F0) meta).2.2) meta).2.1
                  = (audioApplyMeta u (S0, A0, F0) meta).2.1 := by
                rw [audioApplyMeta_assocs, hgl]
                simp
              rw [stable2, assoc2, hfm2 _ rfl, upsert_upsert_same]
          | false =>
              rw [hte] at hgl
              have hassoc1 : (audioApplyMeta u (S0, A0, F0) meta).2.1
                  = A0.filter (fun pr => pr.1 ≠ u) := by
                rw [audioApplyMeta_assocs, hgl]
                simp
              have hA : ∀ x,
                  (u, x) ∈ (audioApplyMeta u (S0, A0, F0) meta).2.1 →
                  x ∉ toks.map
                    (resolvedUuid (audioApplyMeta u (S0, A0, F0) meta).1) := by
                intro x hx _
                rw [hassoc1] at hx
                have := (List.mem_filter.mp hx).2
                simp at this
              have hook1 := audioHookGenres_found hfound hnd hinv1 u
                (audioApplyMeta u (S0, A0, F0) meta).2.1 hA
              simp only [halk, iterTokens, hook1] at h1
              injection h1 with h1
              subst h1
              simp only [audioBeforeUpdate, audioWriteMetadataToSource, hm,
                Bool.false_eq_true, if_false, halk, iterTokens]
              have hstb : (audioApplyMeta u
                  ((audioApplyMeta u (S0, A0, F0) meta).1,
                   (audioApplyMeta u (S0, A0, F0) meta).2.1
                     ++ hookPairs (audioApplyMeta u (S0, A0, F0) meta).1 u
                          toks,
                   (audioApplyMeta u (S0, A0, F0) meta).2.2) meta).1
                  = (audioApplyMeta u (S0, A0, F0) meta).1 :=
                audioApplyMeta_stable u _ htrig2
              have hassoc2 : (audioApplyMeta u
                  ((audioApplyMeta u (S0, A0, F0) meta).1,
                   (audioApplyMeta u (S0, A0, F0) meta).2.1
                     ++ hookPairs (audioApplyMeta u (S0, A0, F0) meta).1 u
                          toks,
                   (audioApplyMeta u (S0, A0, F0) meta).2.2) meta).2.1
                  = (audioApplyMeta u (S0, A0, F0) meta).2.1 := by
                rw [audioApplyMeta_assocs, hgl]
                simp only [Bool.not_false, if_true, List.filter_append,
                  hookPairs_filter, List.append_nil]
                rw [hassoc1, List.filter_filter]
                simp
              rw [hstb, hassoc2, hook1,
                hfm2 ((audioApplyMeta u (S0, A0, F0) meta).1,
                  (audioApplyMeta u (S0, A0, F0) meta).2.1
                    ++ hookPairs (audioApplyMeta u (S0, A0, F0) meta).1 u
                         toks,
                  (audioApplyMeta u (S0, A0, F0) meta).2.2) rfl,
                upsert_upsert_same]
/-- State for the C7 witness: same entity as the counterexample but with the
already-normalized token rock. -/
def c7wst : MediaState :=
  ⟨[], [], ⟨5, none, some "/f.mp3", none, some "f.mp3",
    [("genres", MVal.l ["rock"])], [], "draft", 0⟩, [], 180⟩

/-- Result of the first application on the witness state. -/
def c7wst1 : MediaState :=
  ⟨[⟨0, "rock", "audio"⟩], [(5, 0)],
   ⟨5, none, some "/f.mp3", none, some "f.mp3",
    [("genres", MVal.l ["rock"])], [("duration", MVal.n 180)], "draft", 1⟩,
   [("genres", MVal.l ["rock"])], 180⟩

/-- Witness for C7 amended: with the normalized token rock the second
application of the hook reproduces the state of the first application. -/
theorem c7_witness : audioBeforeUpdate 1 c7wst1 = some c7wst1 :=
  c7_amended_idempotent c7wst c7wst1 1 (by decide)
    (fun v hv => by
      injection hv with h
      subst h
      exact ⟨["rock"], rfl, by decide, by decide⟩)
    ⟨fun t ht => absurd ht (List.not_mem_nil t), List.nodup_nil⟩
    (by decide)

end AnyblokMedia
